import Mathlib

/-!
Verification of `src/native/jni/daemon/log_daemon.c` (Magisk log daemon).

The daemon tails logcat output, classifies each line with two fixed
predicates, and fans matching lines out to two channels held in the global
`events` array: `HIDE_EVENT` (a subscriber socket, attachable at runtime)
and `LOG_EVENT` (the persistent log file opened at startup).  This file
gives a shallow embedding of the C code: log lines are `List Char` (the
contents of the C string up to its NUL terminator), file descriptors are
`Int` with the source's `-1` sentinel for "unset", and the side-effecting
loops are rendered as pure functions that return the ordered trace of the
externally visible actions they perform.
-/

/-- A log line, as the character content of the C string handed to the
filters and to `write` (the `write` call uses `strlen`, so the line is
exactly the characters before the NUL terminator). -/
abbrev Line := List Char

/-- Does `s` begin with `pat`?  Embeds the prefix comparison that a C
`strstr` performs at each candidate position. -/
def str_starts : Line → Line → Bool
  | [], _ => true
  | _ :: _, [] => false
  | p :: ps, c :: cs => p == c && str_starts ps cs

/-- Does `pat` occur as a contiguous substring of `s`?  Embeds
`strstr(s, pat) != NULL`. -/
def strstr_found (pat : Line) : Line → Bool
  | [] => str_starts pat []
  | c :: cs => str_starts pat (c :: cs) || strstr_found pat cs

/-- The literal substring searched for by `am_proc_start_filter`. -/
def am_proc_start_str : Line := "am_proc_start".toList

/-- Embeds `am_proc_start_filter` (log_daemon.c:35):
`strstr(log, "am_proc_start") != NULL`. -/
def am_proc_start_filter (log : Line) : Bool :=
  strstr_found am_proc_start_str log

/-- Embeds `magisk_log_filter` (log_daemon.c:39):
`!am_proc_start_filter(log)`. -/
def magisk_log_filter (log : Line) : Bool :=
  !am_proc_start_filter log

/-- The two channel indices of the `events` array (log_daemon.c:25). -/
inductive Event
  | HIDE_EVENT
  | LOG_EVENT
  deriving DecidableEq

/-- The mutable part of the listener registry: the `fd` field of each
`struct log_listener` in `events` (log_daemon.c:43).  `-1` is the
source's sentinel for an unset sink.  The `filter` fields are constants
fixed by the initializer and are modelled by `filterOf`. -/
structure RegState where
  hideFd : Int
  logFd : Int
  deriving DecidableEq

/-- The `fd` field of `events[e]`. -/
def fdOf (s : RegState) : Event → Int
  | .HIDE_EVENT => s.hideFd
  | .LOG_EVENT => s.logFd

/-- The `filter` field of `events[e]`, per the initializer
(log_daemon.c:43-52). -/
def filterOf : Event → Line → Bool
  | .HIDE_EVENT => am_proc_start_filter
  | .LOG_EVENT => magisk_log_filter

/-- Channel iteration order of the fan-out loop: `i = 0 .. EVENT_NUM-1`. -/
def channels : List Event := [Event.HIDE_EVENT, Event.LOG_EVENT]

/-- One `write(events[i].fd, line, len)` call performed by the fan-out
loop: the channel it went to, the descriptor written, and the bytes. -/
structure WriteEv where
  ch : Event
  fd : Int
  data : Line
  deriving DecidableEq

/-- Embeds the locked fan-out body of `logcat_thread`
(log_daemon.c:90-96): for each channel with `fd > 0` whose filter
matches, write the whole line (`strlen(line)` bytes) to that fd. -/
def publish (s : RegState) (line : Line) : List WriteEv :=
  channels.filterMap fun e =>
    if 0 < fdOf s e ∧ filterOf e line = true then
      some ⟨e, fdOf s e, line⟩
    else
      none

/-- Registry well-formedness: every sink is either the unset sentinel
`-1` or a strictly positive descriptor.  This holds in every reachable
state of the daemon: the initializer uses `-1`, `sigpipe_handler`
resets to `-1`, and the descriptors installed by `xopen` and `xaccept4`
are positive because descriptors 0-2 remain open in the daemon. -/
def reg_wf (s : RegState) : Prop :=
  (s.hideFd = -1 ∨ 0 < s.hideFd) ∧ (s.logFd = -1 ∨ 0 < s.logFd)

instance (s : RegState) : Decidable (reg_wf s) := by
  unfold reg_wf; infer_instance

/-! ### Control server (log_daemon.c:159-173)

The accept loop reads one opcode per connection and dispatches.  The
opcode constants `HIDE_CONNECT` and `HANDSHAKE` come from a header
outside this repository; we model the decoded request, with `unknown`
covering every other integer read, and parametrise over the integer
value `hsTok` of the `HANDSHAKE` constant that the reply writes back. -/

/-- The decoded result of `read_int(fd)` in the accept loop. -/
inductive Opcode
  | HIDE_CONNECT
  | HANDSHAKE
  | unknown (n : Int)
  deriving DecidableEq

/-- An externally visible action of the control server or the SIGPIPE
handler, in program order. -/
inductive Act
  | lockA
  | unlockA
  | closeA (fd : Int)
  | assignHideA (fd : Int)
  | writeIntA (fd : Int) (v : Int)
  | exitA (code : Int)
  deriving DecidableEq

/-- Embeds one iteration of the accept-loop `switch` (log_daemon.c:161-172)
for an accepted connection `fd`: `HIDE_CONNECT` locks, closes the old
`events[HIDE_EVENT].fd`, installs `fd`, unlocks, and breaks without
closing `fd`; `HANDSHAKE` writes the token back and falls through to
`default`, which closes `fd`.  Returns the new registry state and the
trace of actions. -/
def control_step (hsTok : Int) (op : Opcode) (fd : Int) (s : RegState) :
    RegState × List Act :=
  match op with
  | .HIDE_CONNECT =>
      ({ s with hideFd := fd },
       [Act.lockA, Act.closeA s.hideFd, Act.assignHideA fd,
        Act.unlockA])
  | .HANDSHAKE =>
      (s, [Act.writeIntA fd hsTok, Act.closeA fd])
  | .unknown _ =>
      (s, [Act.closeA fd])

/-- The accept loop run over a finite burst of requests, each a decoded
opcode together with the accepted connection's descriptor; threads the
registry state and concatenates the traces. -/
def control_run (hsTok : Int) (reqs : List (Opcode × Int)) (s : RegState) :
    RegState × List Act :=
  match reqs with
  | [] => (s, [])
  | (op, fd) :: rest =>
      let r1 := control_step hsTok op fd s
      let r2 := control_run hsTok rest r1.1
      (r2.1, r1.2 ++ r2.2)

/-- Embeds `sigpipe_handler` (log_daemon.c:55-58), which runs when a
write to a broken subscriber raises SIGPIPE.  The only sink that can be
a broken pipe/socket peer is the transient-event channel's (the
persistent-log sink is a regular file, which never raises SIGPIPE), and
the handler closes `events[HIDE_EVENT].fd` and resets it to `-1`. -/
def sigpipe_handler (s : RegState) : RegState × List Act :=
  ({ s with hideFd := -1 }, [Act.closeA s.hideFd])

/-! ### Log tailer (log_daemon.c:80-109) -/

/-- An externally visible event of the tailer thread, in program order. -/
inductive TEv
  | spawnE (argv : List String)
  | writeE (ch : Event) (fd : Int) (data : Line)
  | closeStreamE
  | termE (pid : Int)
  | waitE (pid : Int)
  deriving DecidableEq

/-- Embeds the per-line body of the streaming loop (log_daemon.c:87-96):
a line whose first byte is `'-'` (logcat's dropped-output marker) is
skipped by `continue`; any other line is fanned out under the lock. -/
def stream_line_events (s : RegState) (l : Line) : List TEv :=
  if l.head? = some '-' then
    []
  else
    (publish s l).map fun w => TEv.writeE w.ch w.fd w.data

/-- One tailer session: the registry state during it, the `log_pid` of
the spawned logcat, the pid of the buffer-clear invocation run after it
ends, and the lines read before end-of-stream. -/
structure Sess where
  reg : RegState
  pid : Int
  cpid : Int
  lines : List Line
  deriving DecidableEq

/-- Embeds one iteration of the outer `while (1)` of `logcat_thread`
(log_daemon.c:83-108): spawn logcat with `log_cmd`, stream lines until
EOF, then `fclose` the stream, `kill(log_pid, SIGTERM)`,
`waitpid(log_pid)`, spawn the `clear_cmd` invocation and `waitpid` it. -/
def logcat_iteration (lc cc : List String) (q : Sess) : List TEv :=
  TEv.spawnE lc ::
    (q.lines.flatMap fun l => stream_line_events q.reg l) ++
      [TEv.closeStreamE, TEv.termE q.pid, TEv.waitE q.pid,
       TEv.spawnE cc, TEv.waitE q.cpid]

/-- The tailer loop run over any finite number of sessions; the loop
body repeats identically for every session, with no exit path. -/
def logcat_thread_run (lc cc : List String) : List Sess → List TEv
  | [] => []
  | q :: rest => logcat_iteration lc cc q ++ logcat_thread_run lc cc rest

/-! ### Startup: command construction (log_daemon.c:126-143) -/

/-- The three candidate logcat buffers probed at startup
(log_daemon.c:130). -/
def buffers : List String := ["main", "events", "crash"]

/-- The buffer options pushed by the probe loop: `"-b" b` for each
buffer whose dry-run probe succeeded, in declaration order. -/
def buf_opts (probe : String → Bool) : List String :=
  (buffers.filter probe).flatMap fun b => ["-b", b]

/-- The streaming-only options appended to `log_cmd` after `clear_cmd`
is duplicated from it (log_daemon.c:137-139); `dbg` is the
`MAGISK_DEBUG` build flag guarding the extra `"*:F"` entry. -/
def stream_opts (dbg : Bool) : List String :=
  ["-v", "threadtime", "-s", "am_proc_start", "Magisk"] ++
    if dbg then ["*:F"] else []

/-- The two argv vectors built at startup (without the terminating C
`NULL` entry, which only marks the end of the array). -/
structure Cmds where
  log_cmd : List String
  clear_cmd : List String
  deriving DecidableEq

/-- Embeds the construction of `log_cmd` and `clear_cmd`
(log_daemon.c:126-143): start from the logcat path, push `"-b" b` for
each buffer whose synchronous dry-run succeeds (`probe b`), duplicate
the vector into `clear_cmd`, then append the streaming options (plus
`"*:F"` under `MAGISK_DEBUG`) to `log_cmd` and `"-c"` to `clear_cmd`. -/
def build_cmds (logcat : String) (probe : String → Bool) (dbg : Bool) : Cmds :=
  let base := buffers.foldl
    (fun v b => if probe b then v ++ ["-b", b] else v) [logcat]
  let log1 := base ++ ["-v", "threadtime", "-s", "am_proc_start", "Magisk"]
  let log2 := if dbg then log1 ++ ["*:F"] else log1
  { log_cmd := log2, clear_cmd := base ++ ["-c"] }

/-! ### Startup: daemon bootstrap (log_daemon.c:111-174) -/

/-- The open flags of the persistent log file (log_daemon.c:124). -/
inductive OFlag
  | O_CREAT
  | O_WRONLY
  | O_TRUNC
  | O_CLOEXEC
  | O_APPEND
  deriving DecidableEq

/-- Worker threads spawned by `log_daemon` (log_daemon.c:146-150). -/
inductive TName
  | monitorT
  | logcatT
  deriving DecidableEq

/-- An externally visible event of `log_daemon`'s startup sequence. -/
inductive SEv
  | renameE (src dst : String)
  | openE (path : String) (flags : List OFlag) (mode : Nat) (fd : Int)
  | execSyncE (argv : List String)
  | chmodE (path : String) (mode : Nat)
  | spawnThreadE (t : TName)
  | bindE
  | listenE
  | exitE (code : Int)
  deriving DecidableEq

/-- The flag argument of the `xopen` call for the persistent log
(log_daemon.c:124). -/
def log_open_flags : List OFlag :=
  [OFlag.O_CREAT, OFlag.O_WRONLY, OFlag.O_TRUNC, OFlag.O_CLOEXEC,
   OFlag.O_APPEND]

/-- How `log_daemon` ends its startup: `exit(1)` when `xbind` fails
(log_daemon.c:156-157), or entry into the accept loop. -/
inductive StartupResult
  | exited (code : Int)
  | serving
  deriving DecidableEq

/-- What the bootstrap leaves behind: its event trace, the registry
contents at the moment the worker threads are spawned, and whether it
reached the accept loop. -/
structure StartState where
  trace : List SEv
  reg : RegState
  result : StartupResult
  deriving DecidableEq

/-- Embeds the bootstrap body of `log_daemon` (log_daemon.c:111-158):
rename the previous persistent log to its `.bak` name, open a fresh one
(descriptor `logfd`) and install it as `events[LOG_EVENT].fd`, run the
three buffer dry-run probes, chmod `/dev/null` back, spawn the monitor
and logcat threads, then bind the rendezvous socket: on bind failure
`exit(1)`, otherwise listen and enter the accept loop.  `LOGFILE` and
the logcat path are macros from headers outside this repository and are
parameters here. -/
def log_daemon_start (LOGFILE logcat : String) (logfd : Int)
    (bindOk : Bool) : StartState :=
  let pre : List SEv :=
    SEv.renameE LOGFILE (LOGFILE ++ ".bak") ::
    SEv.openE LOGFILE log_open_flags 420 logfd ::
    (buffers.map fun b =>
      SEv.execSyncE [logcat, "-b", b, "-d", "-f", "/dev/null"]) ++
    [SEv.chmodE "/dev/null" 438,
     SEv.spawnThreadE TName.monitorT,
     SEv.spawnThreadE TName.logcatT,
     SEv.bindE]
  if bindOk then
    { trace := pre ++ [SEv.listenE],
      reg := { hideFd := -1, logFd := logfd },
      result := StartupResult.serving }
  else
    { trace := pre ++ [SEv.exitE 1],
      reg := { hideFd := -1, logFd := logfd },
      result := StartupResult.exited 1 }

/-! ### Theorems -/

/-- Closed form of the fan-out loop: at most one write per channel, in
channel order, each guarded by the source's `fd > 0 && filter(line)`
test. -/
theorem publish_eq (s : RegState) (line : Line) :
    publish s line =
      (if 0 < s.hideFd ∧ am_proc_start_filter line = true then
         [⟨Event.HIDE_EVENT, s.hideFd, line⟩] else []) ++
      (if 0 < s.logFd ∧ magisk_log_filter line = true then
         [⟨Event.LOG_EVENT, s.logFd, line⟩] else []) := by
  by_cases h1 : 0 < s.hideFd ∧ am_proc_start_filter line = true <;>
    by_cases h2 : 0 < s.logFd ∧ magisk_log_filter line = true <;>
      simp [publish, channels, fdOf, filterOf, h1, h2]

/-- C1: `publish` writes the line verbatim and in full to exactly the
channels whose sink is set (not the `-1` sentinel) and whose predicate
matches; all other channels receive nothing, and with no sink attached
anywhere no write happens at all.  The hypothesis `reg_wf s` records
that reachable registry states hold either the sentinel or a positive
descriptor, under which the source's `fd > 0` test coincides with
"sink is set". -/
theorem publish_fanout_exact (s : RegState) (line : Line) (hw : reg_wf s) :
    (∀ e : Event,
        (fdOf s e ≠ -1 ∧ filterOf e line = true) ↔
          (⟨e, fdOf s e, line⟩ : WriteEv) ∈ publish s line)
  ∧ (∀ w ∈ publish s line,
        w.data = line ∧ w.fd = fdOf s w.ch ∧ fdOf s w.ch ≠ -1 ∧
          filterOf w.ch line = true)
  ∧ ((∀ e : Event, fdOf s e = -1) → publish s line = []) := by
  obtain ⟨h1, h2⟩ := hw
  have e1 : 0 < s.hideFd ↔ s.hideFd ≠ -1 := by omega
  have e2 : 0 < s.logFd ↔ s.logFd ≠ -1 := by omega
  refine ⟨?_, ?_, ?_⟩
  · intro e
    rw [publish_eq]
    cases e <;> cases hf : am_proc_start_filter line <;>
      simp [fdOf, filterOf, magisk_log_filter, hf, WriteEv.mk.injEq] <;>
        omega
  · intro w hw'
    rw [publish_eq] at hw'
    rcases List.mem_append.1 hw' with h | h <;> split_ifs at h with hc <;>
      simp only [List.mem_singleton, List.not_mem_nil] at h <;>
        subst h <;> simp_all [fdOf, filterOf]
  · intro hall
    have hH := hall Event.HIDE_EVENT
    have hL := hall Event.LOG_EVENT
    simp only [fdOf] at hH hL
    rw [publish_eq]
    norm_num [hH, hL]

/-- Witness for `publish_fanout_exact` at a concrete well-formed state
and line. -/
theorem publish_fanout_exact_w :
    (∀ e : Event,
        (fdOf ⟨5, 7⟩ e ≠ -1 ∧ filterOf e ['x'] = true) ↔
          (⟨e, fdOf ⟨5, 7⟩ e, ['x']⟩ : WriteEv) ∈ publish ⟨5, 7⟩ ['x'])
  ∧ (∀ w ∈ publish ⟨5, 7⟩ ['x'],
        w.data = ['x'] ∧ w.fd = fdOf ⟨5, 7⟩ w.ch ∧
          fdOf ⟨5, 7⟩ w.ch ≠ -1 ∧ filterOf w.ch ['x'] = true)
  ∧ ((∀ e : Event, fdOf ⟨5, 7⟩ e = -1) → publish ⟨5, 7⟩ ['x'] = []) :=
  publish_fanout_exact ⟨5, 7⟩ ['x'] (by decide)

/-- C2: a line whose first byte is the dropped-output marker `'-'` is
skipped by the `continue` at log_daemon.c:88-89 before the fan-out
loop runs, so it produces no write to any channel's sink, the
persistent-log file included. -/
theorem dropped_marker_discarded (s : RegState) (l : Line)
    (h : l.head? = some '-') : stream_line_events s l = [] := by
  simp [stream_line_events, h]

/-- Witness for `dropped_marker_discarded` on a concrete marker line. -/
theorem dropped_marker_discarded_w :
    (('-' :: ['x'] : Line).head? = some '-') ∧
      stream_line_events ⟨3, 4⟩ ('-' :: ['x']) = [] :=
  ⟨rfl, dropped_marker_discarded ⟨3, 4⟩ ('-' :: ['x']) rfl⟩

/-- C10: `magisk_log_filter` is the pointwise complement of
`am_proc_start_filter`, so with both sinks attached every line is
delivered to exactly one of the two channels — the transient-event
channel when it contains `am_proc_start`, the persistent-log channel
otherwise — and never to both. -/
theorem filters_complement_one_channel (l : Line) (s : RegState)
    (hH : 0 < s.hideFd) (hL : 0 < s.logFd) :
    magisk_log_filter l = !am_proc_start_filter l
  ∧ (am_proc_start_filter l = true ↔
        strstr_found am_proc_start_str l = true)
  ∧ (publish s l).map WriteEv.ch =
      (if am_proc_start_filter l = true then [Event.HIDE_EVENT]
       else [Event.LOG_EVENT]) := by
  refine ⟨rfl, Iff.rfl, ?_⟩
  rw [publish_eq]
  cases hf : am_proc_start_filter l <;>
    simp [magisk_log_filter, hf, hH, hL]

/-- Witness for `filters_complement_one_channel` at a concrete state
and line. -/
theorem filters_complement_one_channel_w :
    magisk_log_filter ['x'] = !am_proc_start_filter ['x']
  ∧ (am_proc_start_filter ['x'] = true ↔
        strstr_found am_proc_start_str ['x'] = true)
  ∧ (publish ⟨3, 4⟩ ['x']).map WriteEv.ch =
      (if am_proc_start_filter ['x'] = true then [Event.HIDE_EVENT]
       else [Event.LOG_EVENT]) :=
  filters_complement_one_channel ['x'] ⟨3, 4⟩ (by decide) (by decide)

/-- C3: on `HIDE_CONNECT` with a sink already set, the server locks,
closes the old sink exactly once, installs the accepted descriptor as
the new sink, and unlocks; the accepted connection itself is never
closed, and the persistent-log channel is untouched. -/
theorem attach_replaces_sink (hsTok fd : Int) (s : RegState)
    (_hset : s.hideFd ≠ -1) (hne : fd ≠ s.hideFd) :
    control_step hsTok Opcode.HIDE_CONNECT fd s =
      ({ s with hideFd := fd },
       [Act.lockA, Act.closeA s.hideFd, Act.assignHideA fd, Act.unlockA])
  ∧ (control_step hsTok Opcode.HIDE_CONNECT fd s).2.count
        (Act.closeA s.hideFd) = 1
  ∧ Act.closeA fd ∉ (control_step hsTok Opcode.HIDE_CONNECT fd s).2
  ∧ (control_step hsTok Opcode.HIDE_CONNECT fd s).1.hideFd = fd
  ∧ (control_step hsTok Opcode.HIDE_CONNECT fd s).1.logFd = s.logFd := by
  refine ⟨rfl, ?_, ?_, rfl, rfl⟩
  · simp [control_step, List.count_cons]
  · simp [control_step, hne]

/-- Witness for `attach_replaces_sink` at concrete descriptors. -/
theorem attach_replaces_sink_w :
    control_step 9 Opcode.HIDE_CONNECT 7 ⟨5, 3⟩ =
      (⟨7, 3⟩,
       [Act.lockA, Act.closeA 5, Act.assignHideA 7, Act.unlockA])
  ∧ (control_step 9 Opcode.HIDE_CONNECT 7 ⟨5, 3⟩).2.count
        (Act.closeA 5) = 1
  ∧ Act.closeA 7 ∉ (control_step 9 Opcode.HIDE_CONNECT 7 ⟨5, 3⟩).2
  ∧ (control_step 9 Opcode.HIDE_CONNECT 7 ⟨5, 3⟩).1.hideFd = 7
  ∧ (control_step 9 Opcode.HIDE_CONNECT 7 ⟨5, 3⟩).1.logFd = 3 :=
  attach_replaces_sink 9 7 ⟨5, 3⟩ (by decide) (by decide)

/-- C4: a burst of any number of `HANDSHAKE` requests leaves the
registry state untouched, and each request is answered by writing back
the same fixed token on its own connection followed by closing that
connection. -/
theorem handshake_idempotent (hsTok : Int) (s : RegState)
    (fds : List Int) :
    control_run hsTok (fds.map fun fd => (Opcode.HANDSHAKE, fd)) s =
      (s, fds.flatMap fun fd =>
        [Act.writeIntA fd hsTok, Act.closeA fd]) := by
  induction fds with
  | nil => rfl
  | cons fd rest ih => simp [control_run, control_step, ih]

/-- C5: every iteration of the tailer loop has the shape
spawn-source, stream (writes only), close stream, terminate and reap
the source, then run the clear invocation and reap it; the loop body
repeats unchanged for every session, with no exit path. -/
theorem tailer_loop_order (lc cc : List String) (sessions : List Sess) :
    logcat_thread_run lc cc sessions =
      sessions.flatMap (fun q => logcat_iteration lc cc q)
  ∧ ∀ q : Sess, ∃ stream : List TEv,
      logcat_iteration lc cc q =
        TEv.spawnE lc :: stream ++
          [TEv.closeStreamE, TEv.termE q.pid, TEv.waitE q.pid,
           TEv.spawnE cc, TEv.waitE q.cpid]
      ∧ ∀ e ∈ stream, ∃ ch fd l, e = TEv.writeE ch fd l := by
  constructor
  · induction sessions with
    | nil => rfl
    | cons q rest ih => simp [logcat_thread_run, ih]
  · intro q
    refine ⟨q.lines.flatMap fun l => stream_line_events q.reg l, rfl, ?_⟩
    intro e he
    rcases List.mem_flatMap.1 he with ⟨l, _, hl⟩
    unfold stream_line_events at hl
    split at hl
    · simp at hl
    · rcases List.mem_map.1 hl with ⟨w, _, hw⟩
      exact ⟨w.ch, w.fd, w.data, hw.symm⟩

/-- C7: the SIGPIPE handler run after a write to the broken subscriber
closes that (transient-event) channel's old sink exactly once and marks
it unset, leaves the persistent-log channel's sink unchanged, performs
no exit, and afterwards `publish` never writes to the cleared channel
again. -/
theorem broken_subscriber_cleared (s : RegState) :
    (sigpipe_handler s).2 = [Act.closeA s.hideFd]
  ∧ (sigpipe_handler s).1.hideFd = -1
  ∧ (sigpipe_handler s).1.logFd = s.logFd
  ∧ (∀ c : Int, Act.exitA c ∉ (sigpipe_handler s).2)
  ∧ (∀ l : Line, ∀ w ∈ publish (sigpipe_handler s).1 l,
        w.ch = Event.LOG_EVENT) := by
  refine ⟨rfl, rfl, rfl, ?_, ?_⟩
  · intro c
    simp [sigpipe_handler]
  · intro l w hw
    rw [publish_eq] at hw
    rcases List.mem_append.1 hw with h | h <;> split_ifs at h with hc
    · exact absurd hc.1 (by norm_num [sigpipe_handler])
    · simp at h
    · simp at h
      rw [h]
    · simp at h

/-- The buffer-probe `foldl` in closed form. -/
theorem probe_foldl_eq (probe : String → Bool) (l init : List String) :
    l.foldl (fun v b => if probe b then v ++ ["-b", b] else v) init =
      init ++ (l.filter probe).flatMap (fun b => ["-b", b]) := by
  induction l generalizing init with
  | nil => simp
  | cons b rest ih =>
      cases h : probe b <;>
        simp [List.foldl_cons, List.filter_cons, h, ih]

/-- Every entry of the probed buffer options is either the `"-b"` flag
or one of the three candidate buffer names. -/
theorem buf_opts_entries (probe : String → Bool) :
    ∀ x ∈ buf_opts probe, x = "-b" ∨ x ∈ buffers := by
  intro x hx
  rcases List.mem_flatMap.1 hx with ⟨b, hb, hxb⟩
  rcases List.mem_cons.1 hxb with h | h
  · exact Or.inl h
  · simp at h
    exact Or.inr (h ▸ List.mem_of_mem_filter hb)

/-- A candidate buffer name appears among the probed buffer options
exactly when its probe succeeded. -/
theorem mem_buf_opts_iff (probe : String → Bool) (b : String)
    (hb : b ∈ buffers) : b ∈ buf_opts probe ↔ probe b = true := by
  constructor
  · intro hmem
    rcases List.mem_flatMap.1 hmem with ⟨a, ha, hba⟩
    rcases List.mem_cons.1 hba with h | h
    · subst h
      exact absurd hb (by decide)
    · simp at h
      subst h
      exact (List.mem_filter.1 ha).2
  · intro hp
    exact List.mem_flatMap.2
      ⟨b, List.mem_filter.2 ⟨hb, hp⟩, by simp⟩

/-- C6: the streaming argv holds a buffer name exactly when its dry-run
probe succeeded, and the clear argv is the streaming argv's prefix —
same program path, same probed buffer options — extended by `"-c"`
only, with none of the streaming-only options.  The two hypotheses
record that the logcat program path is not itself one of the buffer
names or streaming options (it ends in `/logcat`). -/
theorem cmdline_probed_buffers (logcat : String) (probe : String → Bool)
    (dbg : Bool) (hb : logcat ∉ buffers)
    (hs : logcat ∉ stream_opts dbg) :
    (build_cmds logcat probe dbg).log_cmd =
        logcat :: (buf_opts probe ++ stream_opts dbg)
  ∧ (build_cmds logcat probe dbg).clear_cmd =
        logcat :: (buf_opts probe ++ ["-c"])
  ∧ (∀ b ∈ buffers,
        (b ∈ (build_cmds logcat probe dbg).log_cmd ↔ probe b = true))
  ∧ (∀ x ∈ stream_opts dbg,
        x ∉ (build_cmds logcat probe dbg).clear_cmd) := by
  have hlog : (build_cmds logcat probe dbg).log_cmd =
      logcat :: (buf_opts probe ++ stream_opts dbg) := by
    cases dbg <;>
      simp [build_cmds, probe_foldl_eq, buf_opts, stream_opts]
  have hclear : (build_cmds logcat probe dbg).clear_cmd =
      logcat :: (buf_opts probe ++ ["-c"]) := by
    simp [build_cmds, probe_foldl_eq, buf_opts]
  have hdisj : ∀ x ∈ stream_opts dbg,
      x ≠ "-b" ∧ x ∉ buffers ∧ x ≠ "-c" := by
    cases dbg <;> decide
  refine ⟨hlog, hclear, ?_, ?_⟩
  · intro b hbuf
    rw [hlog]
    simp only [List.mem_cons, List.mem_append]
    constructor
    · rintro (h | h | h)
      · exact absurd (h ▸ hbuf) hb
      · exact (mem_buf_opts_iff probe b hbuf).1 h
      · exact absurd hbuf ((hdisj b h).2.1)
    · intro hp
      exact Or.inr (Or.inl ((mem_buf_opts_iff probe b hbuf).2 hp))
  · intro x hx
    rw [hclear]
    simp only [List.mem_cons, List.mem_append, List.mem_singleton]
    rintro (h | h | h | h)
    · exact hs (h ▸ hx)
    · rcases buf_opts_entries probe x h with h' | h'
      · exact (hdisj x hx).1 h'
      · exact (hdisj x hx).2.1 h'
    · exact (hdisj x hx).2.2 h
    · simp at h

/-- Witness for `cmdline_probed_buffers` with a concrete path, probe
outcome and build flag. -/
theorem cmdline_probed_buffers_w :
    (build_cmds "logcat" (fun b => b == "main") false).log_cmd =
        "logcat" :: (buf_opts (fun b => b == "main") ++ stream_opts false)
  ∧ (build_cmds "logcat" (fun b => b == "main") false).clear_cmd =
        "logcat" :: (buf_opts (fun b => b == "main") ++ ["-c"])
  ∧ (∀ b ∈ buffers,
        (b ∈ (build_cmds "logcat" (fun b => b == "main") false).log_cmd ↔
          (fun b => b == "main") b = true))
  ∧ (∀ x ∈ stream_opts false,
        x ∉ (build_cmds "logcat" (fun b => b == "main") false).clear_cmd) :=
  cmdline_probed_buffers "logcat" (fun b => b == "main") false
    (by decide) (by decide)

/-- C8: when binding the rendezvous socket fails, startup ends in
`exit(1)` — the failure exit is the final event of the bootstrap trace,
and the accept loop is never entered; conversely, reaching the accept
loop is only possible when the bind succeeded. -/
theorem bind_failure_fatal (LOGFILE logcat : String) (logfd : Int) :
    (log_daemon_start LOGFILE logcat logfd false).result =
        StartupResult.exited 1
  ∧ (log_daemon_start LOGFILE logcat logfd false).trace.getLast? =
        some (SEv.exitE 1)
  ∧ (∀ bindOk : Bool,
        (log_daemon_start LOGFILE logcat logfd bindOk).result =
            StartupResult.serving → bindOk = true) := by
  refine ⟨rfl, ?_, ?_⟩
  · simp [log_daemon_start, buffers, List.getLast?]
  · intro bindOk h
    cases bindOk
    · simp [log_daemon_start] at h
    · rfl

/-- C9: the bootstrap trace begins with the rename of the previous
persistent log to its `.bak` name, immediately followed by opening the
fresh log file with `O_CREAT`, `O_TRUNC` and `O_APPEND`, and only later
spawns the logcat thread — the sole producer of published lines — with
the opened descriptor already installed as the persistent-log channel's
sink and the transient-event channel still unset. -/
theorem startup_log_rotation (LOGFILE logcat : String) (logfd : Int)
    (bindOk : Bool) :
    (∃ mid rest : List SEv,
        (log_daemon_start LOGFILE logcat logfd bindOk).trace =
          SEv.renameE LOGFILE (LOGFILE ++ ".bak") ::
            SEv.openE LOGFILE log_open_flags 420 logfd ::
              (mid ++ SEv.spawnThreadE TName.logcatT :: rest))
  ∧ OFlag.O_CREAT ∈ log_open_flags
  ∧ OFlag.O_TRUNC ∈ log_open_flags
  ∧ OFlag.O_APPEND ∈ log_open_flags
  ∧ (log_daemon_start LOGFILE logcat logfd bindOk).reg.logFd = logfd
  ∧ (log_daemon_start LOGFILE logcat logfd bindOk).reg.hideFd = -1 := by
  refine ⟨?_, by decide, by decide, by decide, ?_, ?_⟩
  · refine ⟨(buffers.map fun b =>
        SEv.execSyncE [logcat, "-b", b, "-d", "-f", "/dev/null"]) ++
        [SEv.chmodE "/dev/null" 438, SEv.spawnThreadE TName.monitorT],
      if bindOk then [SEv.bindE, SEv.listenE]
        else [SEv.bindE, SEv.exitE 1], ?_⟩
    cases bindOk <;> simp [log_daemon_start]
  · cases bindOk <;> rfl
  · cases bindOk <;> rfl
